import Mathlib

/-
Verification of the CrossPoint Calibre wireless protocol engine
(src/activities/network/CalibreWirelessActivity.cpp / .h).

The definitions below are shallow embeddings of the corresponding C++
functions; byte strings are modelled as `List Char`, machine counters as
`Nat`, and the storage backend as an oracle mapping each physical write
(index, requested length) to the length the backend reports written.
-/

namespace CrossPointCalibre

/-- Digit test `c >= '0' && c <= '9'` used throughout the source. -/
def isDigitChar (c : Char) : Bool := '0' ≤ c && c ≤ '9'

/-- Index of the first occurrence of `c`, i.e. `std::string::find(c)`
(`none` plays the role of `npos`). -/
def findChar (c : Char) : List Char → Option Nat
  | [] => none
  | a :: t => if a = c then some 0 else (findChar c t).map (· + 1)

/-- Model of `std::string::find(c, start)`: first occurrence of `c` at index `≥ start`. -/
def findCharFrom (l : List Char) (c : Char) (start : Nat) : Option Nat :=
  (findChar c (l.drop start)).map (· + start)

/-- Value of a string of decimal digits (the in-range behaviour of
`std::stoul` on an all-digit string, as used on the ≤ 12 digit length
prefixes in `readJsonMessage`). -/
def digitsToNat (l : List Char) : Nat :=
  l.foldl (fun a c => a * 10 + (c.toNat - '0'.toNat)) 0

/-- Frame-extraction part of `CalibreWirelessActivity::readJsonMessage`
(CalibreWirelessActivity.cpp lines 435-503), acting on the contents of
`recvBuffer` after the socket-read phase.  Returns the extracted message
(if any) and the new buffer contents. -/
def extractFrame (buf : List Char) : Option (List Char) × List Char :=
  if buf = [] then (none, buf)
  else
    match findChar '[' buf with
    | none => if buf.length > 1000 then (none, []) else (none, buf)
    | some bracketPos =>
      if bracketPos > 0 && bracketPos ≤ 12 && (buf.take bracketPos).all isDigitChar then
        let msgLen := digitsToNat (buf.take bracketPos)
        if msgLen > 1000000 then (none, buf.drop (bracketPos + 1))
        else if buf.length < bracketPos + msgLen then (none, buf)
        else (some ((buf.drop bracketPos).take msgLen), buf.drop (bracketPos + msgLen))
      else
        (none, buf.drop bracketPos)

/-- One full call of `CalibreWirelessActivity::readJsonMessage`
(lines 407-504): `buf` is the current `recvBuffer`, `newBytes` the bytes
available on the socket this round (the bounded read loop reads them all).
The cap check `recvBuffer.size() > 100000` runs before the append and, when
it fires, clears the buffer and reports no frame for the round. -/
def readJsonMessage (buf newBytes : List Char) : Option (List Char) × List Char :=
  if newBytes.length > 0 && buf.length > 100000 then (none, [])
  else extractFrame (buf ++ newBytes)

/-- Buffer evolution under one extraction call with no new socket bytes. -/
def extractStep (b : List Char) : List Char := (extractFrame b).2

/-- Helper for the cap overshoot: one `readJsonMessage` round starting from a
100000-byte buffer `999999[` + 99993 filler bytes appends the new byte and
waits for the (999999-byte) frame, leaving 100001 bytes buffered. -/
theorem readJson_cap_overshoot (t : List Char) (ht : t.length = 99993) :
    ("999999[".data ++ t).length = 100000 ∧
    (readJsonMessage ("999999[".data ++ t) ['y']).1 = none ∧
    (readJsonMessage ("999999[".data ++ t) ['y']).2.length = 100001 := by
  have hc : "999999[".data ++ t = '9' :: '9' :: '9' :: '9' :: '9' :: '9' :: '[' :: t := rfl
  rw [hc]
  refine ⟨by simp [ht], ?_, ?_⟩ <;>
  · rw [readJsonMessage]
    simp [extractFrame, findChar, isDigitChar, digitsToNat, ht]

/-- C1. The claim fails on the code: on `"garbage[5,{}]more"` the extraction
step discards only the bytes strictly before `'['` (keeping the bracket), and
the resulting buffer `"[5,{}]more"` is a fixed point of the step that yields
no frame — so the frame `[5,{}]` is never extracted, and at that fixed point
no byte is discarded even though no valid frame can ever be formed. -/
theorem c1_garbage_recovery_counterexample :
    extractFrame "garbage[5,\x7b\x7d]more".data = (none, "[5,\x7b\x7d]more".data) ∧
    extractFrame "[5,\x7b\x7d]more".data = (none, "[5,\x7b\x7d]more".data) := by
  decide

/-- C1 (amended). On `"garbage[5,{}]more"` the first extraction call discards
the seven garbage bytes before `'['` and reports no frame; the remaining
buffer `"[5,{}]more"` starts with `'['` (empty length prefix), so every
further call reports no frame and leaves the buffer unchanged: the frame
`[5,{}]` is never extracted and no further bytes are discarded. -/
theorem c1_garbage_recovery_amended :
    extractFrame "garbage[5,\x7b\x7d]more".data = (none, "[5,\x7b\x7d]more".data) ∧
    (∀ n : Nat, extractStep^[n] "[5,\x7b\x7d]more".data = "[5,\x7b\x7d]more".data) ∧
    (extractFrame "[5,\x7b\x7d]more".data).1 = none := by
  refine ⟨by decide, ?_, by decide⟩
  intro n
  induction n with
  | zero => rfl
  | succ k ih => rw [Function.iterate_succ_apply', ih]; decide

/-- C5. The claim fails on the code: the cap check runs before the append, so
a round that starts with the buffer exactly at 100000 bytes (here a pending
`999999[...]` frame) appends the newly available byte and ends with 100001
buffered bytes — the buffer is not reset and exceeds the 100000-byte cap. -/
theorem c5_cap_counterexample :
    ("999999[".data ++ List.replicate 99993 'x').length = 100000 ∧
    (readJsonMessage ("999999[".data ++ List.replicate 99993 'x') ['y']).1 = none ∧
    (readJsonMessage ("999999[".data ++ List.replicate 99993 'x') ['y']).2.length = 100001 :=
  readJson_cap_overshoot (List.replicate 99993 'x') (List.length_replicate 99993 'x')

/-- C5 (amended). The reset fires at the start of a round: whenever bytes are
available and the buffer already holds more than 100000 bytes, the whole
buffer is cleared and the round reports no frame.  (A single round may leave
the buffer above the cap by the bytes just appended; the overshoot is
discarded at the next round that has data available.) -/
theorem c5_cap_amended (buf newBytes : List Char) (h1 : newBytes ≠ [])
    (h2 : buf.length > 100000) :
    readJsonMessage buf newBytes = (none, []) := by
  rw [readJsonMessage]
  simp [List.length_pos.mpr h1, h2]

/-- Witness for `c5_cap_amended` at a concrete 100001-byte buffer. -/
theorem c5_cap_amended_witness :
    (List.replicate 100001 'x' : List Char) ≠ [] ∧
    (List.replicate 100001 'x' : List Char).length > 100000 ∧
    readJsonMessage (List.replicate 100001 'x') ['a'] = (none, []) :=
  ⟨List.length_pos.mp (by rw [List.length_replicate]; norm_num),
    by rw [List.length_replicate]; norm_num,
    c5_cap_amended (List.replicate 100001 'x') ['a'] (by decide)
      (by rw [List.length_replicate]; norm_num)⟩

/-- C8. A buffer starting with `9999999[` declares a frame length above the
1,000,000-byte ceiling: the parser rejects it by discarding the prefix and
the bracket, whatever follows; and a valid length-prefixed frame sitting
right behind it is extracted on the next call, so the parser is not wedged. -/
theorem c8_oversized_length_guard :
    (∀ rest : List Char, extractFrame ("9999999[".data ++ rest) = (none, rest)) ∧
    extractFrame "9999999[6[5,\x7b\x7d]".data = (none, "6[5,\x7b\x7d]".data) ∧
    extractFrame "6[5,\x7b\x7d]".data = (some "[5,\x7b\x7d]".data, []) := by
  refine ⟨?_, by decide, by decide⟩
  intro rest
  show extractFrame ('9' :: '9' :: '9' :: '9' :: '9' :: '9' :: '9' :: '[' :: rest) = (none, rest)
  simp [extractFrame, findChar, isDigitChar, digitsToNat]

/-- Enum `CalibreWirelessActivity::WirelessState` (CalibreWirelessActivity.h lines 31-39). -/
inductive WState
  | DISCOVERING | CONNECTING | WAITING | RECEIVING | COMPLETE | DISCONNECTED | ERROR
  deriving DecidableEq, Repr

/-- Storage-backend oracle: maps (write index, requested length) to the length
the backend reports written (`FsFile::write`'s return value). -/
def Oracle : Type := Nat → Nat → Nat

/-- The transfer-relevant mutable state of `CalibreWirelessActivity` plus the
file-scope write-coalescing globals (CalibreWirelessActivity.cpp lines 20-24,
CalibreWirelessActivity.h lines 85-95).  `writeFileSet` models
`currentWriteFile != nullptr`, `fileOpen` the open `currentFile` handle,
`fileWritten` the total bytes the storage accepted, `flushCount` the number of
physical writes issued, and `completions` the number of times the
transfer-complete sequence (final flush, close, OK acknowledgement, state back
to `WAITING`) has run.  Presentation-only fields (status text, filename) are
omitted. -/
structure CalState where
  bytesReceived : Nat
  binaryBytesRemaining : Nat
  currentFileSize : Nat
  inBinaryMode : Bool
  fileOpen : Bool
  writeFileSet : Bool
  writeBufferPos : Nat
  fileWritten : Nat
  flushCount : Nat
  wstate : WState
  errorMessage : Option String
  completions : Nat
  deriving DecidableEq, Repr

/-- Constant `WRITE_BUFFER_SIZE` (CalibreWirelessActivity.cpp line 21). -/
def WRITE_BUFFER_SIZE : Nat := 4096

/-- Model of `flushWriteBuffer` (CalibreWirelessActivity.cpp lines 26-38): writes the
buffered bytes in one call; a returned length different from the requested
length yields `false`; the buffer cursor is reset either way. -/
def flushWriteBuffer (f : Oracle) (s : CalState) : Bool × CalState :=
  if s.writeBufferPos > 0 && s.writeFileSet && s.fileOpen then
    let written := f s.flushCount s.writeBufferPos
    (written == s.writeBufferPos,
      { s with writeBufferPos := 0,
               fileWritten := s.fileWritten + written,
               flushCount := s.flushCount + 1 })
  else (true, s)

/-- Loop body of `bufferedWrite` (CalibreWirelessActivity.cpp lines 40-57),
with a fuel argument bounding the iterations; each iteration with `len > 0`
and `writeBufferPos < WRITE_BUFFER_SIZE` consumes at least one byte, so fuel
`len + 1` is enough. -/
def bufferedWriteAux (f : Oracle) : Nat → CalState → Nat → Bool × CalState
  | 0, s, _ => (true, s)
  | fuel+1, s, len =>
    if len = 0 then (true, s)
    else
      let toCopy := min (WRITE_BUFFER_SIZE - s.writeBufferPos) len
      let s' := { s with writeBufferPos := s.writeBufferPos + toCopy }
      let len' := len - toCopy
      if s'.writeBufferPos ≥ WRITE_BUFFER_SIZE then
        match flushWriteBuffer f s' with
        | (true, s'') => bufferedWriteAux f fuel s'' len'
        | (false, s'') => (false, s'')
      else bufferedWriteAux f fuel s' len'

/-- Model of `bufferedWrite` (CalibreWirelessActivity.cpp lines 40-57): copies `len`
incoming bytes through the 4 KiB coalescing buffer, flushing whenever it
fills. -/
def bufferedWrite (f : Oracle) (s : CalState) (len : Nat) : Bool × CalState :=
  bufferedWriteAux f (len + 1) s len

/-- A storage backend whose writes always succeed in full. -/
def okWrites : Oracle := fun _ req => req

theorem bufferedWriteAux_ok (fuel : Nat) :
    ∀ (len : Nat) (s : CalState), len < fuel →
      s.writeBufferPos < WRITE_BUFFER_SIZE → s.writeFileSet = true → s.fileOpen = true →
      bufferedWriteAux okWrites fuel s len =
        (true, { s with
                 writeBufferPos := (s.writeBufferPos + len) % WRITE_BUFFER_SIZE,
                 fileWritten := s.fileWritten +
                   ((s.writeBufferPos + len) - (s.writeBufferPos + len) % WRITE_BUFFER_SIZE),
                 flushCount := s.flushCount + (s.writeBufferPos + len) / WRITE_BUFFER_SIZE }) := by
  induction fuel with
  | zero => intro len s h; omega
  | succ k ih =>
    intro len s hlen hpos hset hopen
    obtain ⟨br, rem, sz, ib, fo, wfs, pos, fw, fc, st, em, cp⟩ := s
    simp only at hpos hset hopen
    subst hset hopen
    simp only [WRITE_BUFFER_SIZE] at hpos ⊢
    by_cases h0 : len = 0
    · subst h0
      simp only [bufferedWriteAux, if_pos rfl, Prod.mk.injEq, CalState.mk.injEq]
      simp <;> omega
    · rw [bufferedWriteAux]
      simp only [if_neg h0, WRITE_BUFFER_SIZE]
      by_cases hfill : pos + min (4096 - pos) len ≥ 4096
      · have hc : min (4096 - pos) len = 4096 - pos := by omega
        have hguard : pos + min (4096 - pos) len = 4096 := by omega
        simp only [hguard]
        simp only [flushWriteBuffer, okWrites]
        have hrw := ih (len - min (4096 - pos) len)
          { bytesReceived := br, binaryBytesRemaining := rem, currentFileSize := sz,
            inBinaryMode := ib, fileOpen := true, writeFileSet := true,
            writeBufferPos := 0, fileWritten := fw + 4096, flushCount := fc + 1,
            wstate := st, errorMessage := em, completions := cp }
          (by omega) (by simp [WRITE_BUFFER_SIZE]) rfl rfl
        simp only [WRITE_BUFFER_SIZE] at hrw
        simp only [ge_iff_le, le_refl, if_pos]
        norm_num
        rw [hrw]
        simp only [Prod.mk.injEq, CalState.mk.injEq]
        simp <;> omega
      · have hlt : pos + min (4096 - pos) len < 4096 := by omega
        simp only [if_neg (show ¬ 4096 ≤ pos + min (4096 - pos) len by omega)]
        have hrw := ih (len - min (4096 - pos) len)
          { bytesReceived := br, binaryBytesRemaining := rem, currentFileSize := sz,
            inBinaryMode := ib, fileOpen := true, writeFileSet := true,
            writeBufferPos := pos + min (4096 - pos) len, fileWritten := fw, flushCount := fc,
            wstate := st, errorMessage := em, completions := cp }
          (by omega) (by simp [WRITE_BUFFER_SIZE]; omega) rfl rfl
        simp only [WRITE_BUFFER_SIZE] at hrw
        rw [hrw]
        simp only [Prod.mk.injEq, CalState.mk.injEq]
        simp <;> omega


/-- Model of `receiveBinaryData` (CalibreWirelessActivity.cpp lines 765-818).
`available` models `tcpClient.available()`, `bytesRead` the value returned by
`tcpClient.read(buffer, min 4096 binaryBytesRemaining)` (so a caller-side
fact is `bytesRead ≤ min 4096 binaryBytesRemaining`), `connected` the
`tcpClient.connected()` probe. -/
def receiveBinaryData (f : Oracle) (s : CalState) (available bytesRead : Nat)
    (connected : Bool) : CalState :=
  if available = 0 then
    if connected then s
    else
      let s1 := (flushWriteBuffer f s).2
      { s1 with writeFileSet := false, fileOpen := false, inBinaryMode := false,
                errorMessage := some "Transfer interrupted", wstate := .ERROR }
  else if bytesRead > 0 then
    match bufferedWrite f s bytesRead with
    | (false, s1) =>
      let s2 := (flushWriteBuffer f s1).2
      { s2 with writeFileSet := false, fileOpen := false, inBinaryMode := false,
                errorMessage := some "Write error", wstate := .ERROR }
    | (true, s1) =>
      let s2 := { s1 with bytesReceived := s1.bytesReceived + bytesRead,
                          binaryBytesRemaining := s1.binaryBytesRemaining - bytesRead }
      if s2.binaryBytesRemaining = 0 then
        let s3 := (flushWriteBuffer f s2).2
        { s3 with writeFileSet := false, fileOpen := false, inBinaryMode := false,
                  wstate := .WAITING, completions := s3.completions + 1 }
      else s2
  else s

/-- The state updates of `handleSendBook` once `lpath`/`length` parsed and the
file opened (CalibreWirelessActivity.cpp lines 704-729). -/
def sendBookInit (length : Nat) (s0 : CalState) : CalState :=
  { s0 with currentFileSize := length, bytesReceived := 0,
            wstate := .RECEIVING, fileOpen := true, writeFileSet := true,
            writeBufferPos := 0, inBinaryMode := true,
            binaryBytesRemaining := length }

/-- Tail of `handleSendBook` (CalibreWirelessActivity.cpp lines 704-740):
session setup followed by the drain of the `recvLen` bytes already pipelined
in `recvBuffer`; the drain's `bufferedWrite` result is only acted on when
`true` (the source `if` has no `else`). -/
def handleSendBookTail (f : Oracle) (length recvLen : Nat) (s0 : CalState) : CalState :=
  let s := sendBookInit length s0
  if recvLen = 0 then s
  else
    let toWrite := min recvLen s.binaryBytesRemaining
    match bufferedWrite f s toWrite with
    | (true, s1) => { s1 with bytesReceived := s1.bytesReceived + toWrite,
                              binaryBytesRemaining := s1.binaryBytesRemaining - toWrite }
    | (false, s1) => s1

/-- State at the moment a `SEND_BOOK` frame is dispatched in a fresh session
(fields as reset by `onEnter`, CalibreWirelessActivity.cpp lines 78-92). -/
def initialState : CalState :=
  { bytesReceived := 0, binaryBytesRemaining := 0, currentFileSize := 0,
    inBinaryMode := false, fileOpen := false, writeFileSet := false,
    writeBufferPos := 0, fileWritten := 0, flushCount := 0,
    wstate := .WAITING, errorMessage := none, completions := 0 }

/-- A run of `receiveBinaryData` calls on a connected socket; the list gives
the byte count each call reads (0 = nothing available this round). -/
def runReads (f : Oracle) : CalState → List Nat → CalState
  | s, [] => s
  | s, n :: ns => runReads f (receiveBinaryData f s n n true) ns

/-- Socket-read feasibility: each read returns at most
`min 4096 binaryBytesRemaining` bytes (read buffer size, requested count). -/
def validReads : Nat → List Nat → Bool
  | _, [] => true
  | rem, n :: ns => n ≤ min 4096 rem && validReads (rem - n) ns

/-- Inductive invariant of an in-progress transfer session. -/
def TransferInv (s : CalState) : Prop :=
  s.inBinaryMode = true ∧ s.wstate = .RECEIVING ∧ s.fileOpen = true ∧
  s.writeFileSet = true ∧ s.completions = 0 ∧ s.errorMessage = none ∧
  0 < s.binaryBytesRemaining ∧
  s.bytesReceived + s.binaryBytesRemaining = s.currentFileSize ∧
  s.fileWritten + s.writeBufferPos = s.bytesReceived ∧
  s.writeBufferPos < WRITE_BUFFER_SIZE

theorem handleSendBookTail_inv (total k : Nat) (hk : k < total) :
    TransferInv (handleSendBookTail okWrites total k initialState) ∧
    (handleSendBookTail okWrites total k initialState).currentFileSize = total ∧
    (handleSendBookTail okWrites total k initialState).bytesReceived = k ∧
    (handleSendBookTail okWrites total k initialState).binaryBytesRemaining = total - k ∧
    (handleSendBookTail okWrites total k initialState).fileWritten +
      (handleSendBookTail okWrites total k initialState).writeBufferPos = k := by
  rw [handleSendBookTail]
  by_cases h0 : k = 0
  · subst h0
    simp only [if_pos rfl, TransferInv, sendBookInit, initialState, WRITE_BUFFER_SIZE]
    norm_num
    omega
  · simp only [if_neg h0]
    have hmin : min k total = k := by omega
    rw [bufferedWrite]
    have hrw := bufferedWriteAux_ok (min k total + 1) (min k total)
      (sendBookInit total initialState)
      (by omega) (by simp [sendBookInit, initialState, WRITE_BUFFER_SIZE]) rfl rfl
    simp only [sendBookInit, initialState] at hrw
    simp only [sendBookInit, initialState]
    rw [hrw]
    simp only [TransferInv, WRITE_BUFFER_SIZE]
    norm_num
    omega


theorem receiveBinary_step (s : CalState) (n : Nat) (hInv : TransferInv s)
    (hn : 0 < n) (hle : n ≤ min 4096 s.binaryBytesRemaining) :
    (n < s.binaryBytesRemaining →
      TransferInv (receiveBinaryData okWrites s n n true) ∧
      (receiveBinaryData okWrites s n n true).bytesReceived = s.bytesReceived + n ∧
      (receiveBinaryData okWrites s n n true).binaryBytesRemaining =
        s.binaryBytesRemaining - n ∧
      (receiveBinaryData okWrites s n n true).currentFileSize = s.currentFileSize) ∧
    (n = s.binaryBytesRemaining →
      (receiveBinaryData okWrites s n n true).completions = 1 ∧
      (receiveBinaryData okWrites s n n true).bytesReceived = s.currentFileSize ∧
      (receiveBinaryData okWrites s n n true).fileWritten = s.currentFileSize ∧
      (receiveBinaryData okWrites s n n true).wstate = .WAITING ∧
      (receiveBinaryData okWrites s n n true).fileOpen = false ∧
      (receiveBinaryData okWrites s n n true).inBinaryMode = false ∧
      (receiveBinaryData okWrites s n n true).errorMessage = none ∧
      (receiveBinaryData okWrites s n n true).currentFileSize = s.currentFileSize) := by
  obtain ⟨br, rem, sz, ib, fo, wfs, pos, fw, fc, st, em, cp⟩ := s
  obtain ⟨hib, hst, hfo, hwfs, hcp, hem, hrem, hsum, hfwp, hpos⟩ := hInv
  simp only at hib hst hfo hwfs hcp hem hrem hsum hfwp hpos hle
  subst hib hst hfo hwfs hcp hem
  simp only [WRITE_BUFFER_SIZE] at hpos
  subst hsum hfwp
  rw [receiveBinaryData]
  simp only [if_neg (by omega : ¬ n = 0), if_pos hn]
  rw [bufferedWrite, bufferedWriteAux_ok (n + 1) n _ (by omega)
    (by simpa [WRITE_BUFFER_SIZE] using hpos) rfl rfl]
  simp only [WRITE_BUFFER_SIZE]
  constructor
  · intro hlt
    simp only [TransferInv, WRITE_BUFFER_SIZE]
    simp only [if_neg (show ¬ rem - n = 0 by omega)]
    simp
    omega
  · intro heq
    simp only [if_pos (show rem - n = 0 by omega)]
    simp only [flushWriteBuffer]
    by_cases hz : (pos + n) % 4096 = 0
    · simp [hz]
      omega
    · simp [okWrites, Nat.pos_of_ne_zero hz]
      omega


theorem receiveBinary_idle (f : Oracle) (s : CalState) (connected : Bool) :
    receiveBinaryData f s 0 0 connected = if connected then s else
      let s1 := (flushWriteBuffer f s).2
      { s1 with writeFileSet := false, fileOpen := false, inBinaryMode := false,
                errorMessage := some "Transfer interrupted", wstate := .ERROR } := rfl

theorem runReads_zero (f : Oracle) (s : CalState) :
    ∀ ns : List Nat, (∀ n ∈ ns, n = 0) → runReads f s ns = s := by
  intro ns
  induction ns with
  | nil => intro _; rfl
  | cons n ns ih =>
    intro h
    have hn : n = 0 := h n (by simp)
    subst hn
    rw [runReads]
    exact ih fun m hm => h m (by simp [hm])

theorem validReads_zero : ∀ ns : List Nat, validReads 0 ns = true → ∀ n ∈ ns, n = 0 := by
  intro ns
  induction ns with
  | nil => intro _ n h; simp at h
  | cons m ns ih =>
    intro hv n hn
    rw [validReads, Bool.and_eq_true] at hv
    have h1 : m = 0 := by have := hv.1; simp at this; omega
    rcases List.mem_cons.mp hn with h | h
    · omega
    · exact ih (by simpa [h1] using hv.2) n h

theorem runReads_completes :
    ∀ (ns : List Nat) (s : CalState), TransferInv s →
      validReads s.binaryBytesRemaining ns = true → ns.sum = s.binaryBytesRemaining →
      (runReads okWrites s ns).completions = 1 ∧
      (runReads okWrites s ns).bytesReceived = s.currentFileSize ∧
      (runReads okWrites s ns).fileWritten = s.currentFileSize ∧
      (runReads okWrites s ns).wstate = .WAITING ∧
      (runReads okWrites s ns).fileOpen = false ∧
      (runReads okWrites s ns).inBinaryMode = false ∧
      (runReads okWrites s ns).errorMessage = none ∧
      (runReads okWrites s ns).currentFileSize = s.currentFileSize := by
  intro ns
  induction ns with
  | nil =>
    intro s hInv _ hsum
    exfalso
    have hrem := hInv.2.2.2.2.2.2.1
    simp at hsum
    omega
  | cons n ns ih =>
    intro s hInv hv hsum
    rw [validReads, Bool.and_eq_true] at hv
    have hv1 : n ≤ min 4096 s.binaryBytesRemaining := by
      have := hv.1; simpa using this
    have hv2 := hv.2
    simp only [List.sum_cons] at hsum
    rw [runReads]
    by_cases h0 : n = 0
    · subst h0
      rw [show receiveBinaryData okWrites s 0 0 true = s from rfl]
      simp only [Nat.sub_zero] at hv2
      exact ih s hInv hv2 (by omega)
    · have hn : 0 < n := Nat.pos_of_ne_zero h0
      have hstep := receiveBinary_step s n hInv hn hv1
      by_cases hfin : n = s.binaryBytesRemaining
      · obtain ⟨hc1, hc2, hc3, hc4, hc5, hc6, hc7, hc8⟩ := hstep.2 hfin
        have hz : ∀ m ∈ ns, m = 0 := by
          apply validReads_zero
          rw [show s.binaryBytesRemaining - n = 0 by omega] at hv2
          exact hv2
        rw [runReads_zero _ _ ns hz]
        exact ⟨hc1, hc2, hc3, hc4, hc5, hc6, hc7, hc8⟩
      · have hlt : n < s.binaryBytesRemaining := by omega
        obtain ⟨hInv2, hbr, hrem, hsz⟩ := hstep.1 hlt
        have hrec := ih (receiveBinaryData okWrites s n n true) hInv2
          (by rw [hrem]; exact hv2) (by rw [hrem]; omega)
        rw [hsz] at hrec
        exact hrec


/-- The fields `flushWriteBuffer`/`bufferedWrite` never touch. -/
def SameCore (t s : CalState) : Prop :=
  t.bytesReceived = s.bytesReceived ∧ t.binaryBytesRemaining = s.binaryBytesRemaining ∧
  t.currentFileSize = s.currentFileSize ∧ t.inBinaryMode = s.inBinaryMode ∧
  t.fileOpen = s.fileOpen ∧ t.writeFileSet = s.writeFileSet ∧
  t.wstate = s.wstate ∧ t.errorMessage = s.errorMessage ∧ t.completions = s.completions

theorem flushWriteBuffer_sameCore (f : Oracle) (s : CalState) :
    SameCore ((flushWriteBuffer f s).2) s := by
  rw [flushWriteBuffer]
  split <;> simp [SameCore]

theorem bufferedWriteAux_sameCore (f : Oracle) :
    ∀ (fuel len : Nat) (s : CalState), SameCore ((bufferedWriteAux f fuel s len).2) s := by
  intro fuel
  induction fuel with
  | zero => intro len s; simp [bufferedWriteAux, SameCore]
  | succ k ih =>
    intro len s
    rw [bufferedWriteAux]
    by_cases h0 : len = 0
    · simp [h0, SameCore]
    · simp only [if_neg h0]
      set s' := { s with writeBufferPos :=
        s.writeBufferPos + min (WRITE_BUFFER_SIZE - s.writeBufferPos) len } with hs'
      have hcore' : SameCore s' s := by simp [SameCore, hs']
      by_cases hge : s'.writeBufferPos ≥ WRITE_BUFFER_SIZE
      · simp only [if_pos hge]
        rcases hfl : flushWriteBuffer f s' with ⟨b, s''⟩
        have h2 : SameCore s'' s' := by
          have := flushWriteBuffer_sameCore f s'
          rw [hfl] at this
          exact this
        cases b
        · simp only []
          exact ⟨by rw [h2.1, hcore'.1], by rw [h2.2.1, hcore'.2.1],
            by rw [h2.2.2.1, hcore'.2.2.1], by rw [h2.2.2.2.1, hcore'.2.2.2.1],
            by rw [h2.2.2.2.2.1, hcore'.2.2.2.2.1], by rw [h2.2.2.2.2.2.1, hcore'.2.2.2.2.2.1],
            by rw [h2.2.2.2.2.2.2.1, hcore'.2.2.2.2.2.2.1],
            by rw [h2.2.2.2.2.2.2.2.1, hcore'.2.2.2.2.2.2.2.1],
            by rw [h2.2.2.2.2.2.2.2.2, hcore'.2.2.2.2.2.2.2.2]⟩
        · simp only []
          have h3 := ih (len - min (WRITE_BUFFER_SIZE - s.writeBufferPos) len) s''
          exact ⟨by rw [h3.1, h2.1, hcore'.1], by rw [h3.2.1, h2.2.1, hcore'.2.1],
            by rw [h3.2.2.1, h2.2.2.1, hcore'.2.2.1],
            by rw [h3.2.2.2.1, h2.2.2.2.1, hcore'.2.2.2.1],
            by rw [h3.2.2.2.2.1, h2.2.2.2.2.1, hcore'.2.2.2.2.1],
            by rw [h3.2.2.2.2.2.1, h2.2.2.2.2.2.1, hcore'.2.2.2.2.2.1],
            by rw [h3.2.2.2.2.2.2.1, h2.2.2.2.2.2.2.1, hcore'.2.2.2.2.2.2.1],
            by rw [h3.2.2.2.2.2.2.2.1, h2.2.2.2.2.2.2.2.1, hcore'.2.2.2.2.2.2.2.1],
            by rw [h3.2.2.2.2.2.2.2.2, h2.2.2.2.2.2.2.2.2, hcore'.2.2.2.2.2.2.2.2]⟩
      · simp only [if_neg hge]
        have h3 := ih (len - min (WRITE_BUFFER_SIZE - s.writeBufferPos) len) s'
        exact ⟨by rw [h3.1, hcore'.1], by rw [h3.2.1, hcore'.2.1],
          by rw [h3.2.2.1, hcore'.2.2.1], by rw [h3.2.2.2.1, hcore'.2.2.2.1],
          by rw [h3.2.2.2.2.1, hcore'.2.2.2.2.1], by rw [h3.2.2.2.2.2.1, hcore'.2.2.2.2.2.1],
          by rw [h3.2.2.2.2.2.2.1, hcore'.2.2.2.2.2.2.1],
          by rw [h3.2.2.2.2.2.2.2.1, hcore'.2.2.2.2.2.2.2.1],
          by rw [h3.2.2.2.2.2.2.2.2, hcore'.2.2.2.2.2.2.2.2]⟩


theorem sameCore_trans {a b c : CalState} (h1 : SameCore a b) (h2 : SameCore b c) :
    SameCore a c := by
  obtain ⟨x1, x2, x3, x4, x5, x6, x7, x8, x9⟩ := h1
  obtain ⟨y1, y2, y3, y4, y5, y6, y7, y8, y9⟩ := h2
  exact ⟨x1.trans y1, x2.trans y2, x3.trans y3, x4.trans y4, x5.trans y5,
    x6.trans y6, x7.trans y7, x8.trans y8, x9.trans y9⟩

/-- C7. Bound `bytesReceived ≤ totalLength` on every reachable state of a transfer
session: session creation (with any pipelined drain and any storage backend)
establishes `bytesReceived + binaryBytesRemaining = currentFileSize`, and
every `receiveBinaryData` step — given the socket fact
`bytesRead ≤ min 4096 binaryBytesRemaining` — preserves it, so
`bytesReceived` never exceeds `currentFileSize`. -/
theorem c7_progress_invariant :
    (∀ (f : Oracle) (total k : Nat) (s0 : CalState),
      (handleSendBookTail f total k s0).bytesReceived +
        (handleSendBookTail f total k s0).binaryBytesRemaining =
        (handleSendBookTail f total k s0).currentFileSize ∧
      (handleSendBookTail f total k s0).bytesReceived ≤
        (handleSendBookTail f total k s0).currentFileSize) ∧
    (∀ (f : Oracle) (s : CalState) (available n : Nat) (connected : Bool),
      s.bytesReceived + s.binaryBytesRemaining = s.currentFileSize →
      n ≤ min 4096 s.binaryBytesRemaining →
      (receiveBinaryData f s available n connected).bytesReceived +
        (receiveBinaryData f s available n connected).binaryBytesRemaining =
        (receiveBinaryData f s available n connected).currentFileSize ∧
      (receiveBinaryData f s available n connected).bytesReceived ≤
        (receiveBinaryData f s available n connected).currentFileSize) := by
  constructor
  · intro f total k s0
    rw [handleSendBookTail]
    by_cases h0 : k = 0
    · simp [h0, sendBookInit]
    · simp only [if_neg h0]
      split
      · next s1 heq =>
        have hcore : SameCore s1 (sendBookInit total s0) := by
          have hsc := bufferedWriteAux_sameCore f
            (min k (sendBookInit total s0).binaryBytesRemaining + 1)
            (min k (sendBookInit total s0).binaryBytesRemaining) (sendBookInit total s0)
          rw [bufferedWrite] at heq
          rw [heq] at hsc
          exact hsc
        obtain ⟨hc1, hc2, hc3, _⟩ := hcore
        obtain ⟨b1, r1, z1, i1, o1, w1, p1, f1, c1, st1, e1, cp1⟩ := s1
        simp only [sendBookInit] at hc1 hc2 hc3
        simp only [sendBookInit]
        omega
      · next s1 heq =>
        have hcore : SameCore s1 (sendBookInit total s0) := by
          have hsc := bufferedWriteAux_sameCore f
            (min k (sendBookInit total s0).binaryBytesRemaining + 1)
            (min k (sendBookInit total s0).binaryBytesRemaining) (sendBookInit total s0)
          rw [bufferedWrite] at heq
          rw [heq] at hsc
          exact hsc
        obtain ⟨hc1, hc2, hc3, _⟩ := hcore
        simp only [sendBookInit] at hc1 hc2 hc3
        rw [hc1, hc2, hc3]
        simp
  · intro f s available n connected hsum hle
    rw [receiveBinaryData]
    by_cases ha : available = 0
    · simp only [if_pos ha]
      by_cases hc : connected = true
      · simp only [if_pos hc]
        omega
      · simp only [if_neg hc]
        obtain ⟨hf1, hf2, hf3, _⟩ := flushWriteBuffer_sameCore f s
        simp only [hf1, hf2, hf3]
        omega
    · simp only [if_neg ha]
      by_cases hn : n > 0
      · simp only [if_pos hn]
        split
        · next s1 heq =>
          -- bufferedWrite failed: error teardown, counters untouched
          have hcore : SameCore s1 s := by
            have hsc := bufferedWriteAux_sameCore f (n + 1) n s
            rw [bufferedWrite] at heq
            rw [heq] at hsc
            exact hsc
          obtain ⟨hc1, hc2, hc3, _⟩ := hcore
          obtain ⟨hf1, hf2, hf3, _⟩ := flushWriteBuffer_sameCore f s1
          simp only [hf1, hf2, hf3]
          simp only [hc1, hc2, hc3]
          omega
        · next s1 heq =>
          have hcore : SameCore s1 s := by
            have hsc := bufferedWriteAux_sameCore f (n + 1) n s
            rw [bufferedWrite] at heq
            rw [heq] at hsc
            exact hsc
          obtain ⟨hc1, hc2, hc3, _⟩ := hcore
          obtain ⟨b1, r1, z1, i1, o1, w1, p1, f1, c1, st1, e1, cp1⟩ := s1
          simp only at hc1 hc2 hc3
          by_cases hrem : r1 - n = 0
          · simp only [show r1 - n = 0 from hrem]
            obtain ⟨hf1, hf2, hf3, _⟩ := flushWriteBuffer_sameCore f
              (CalState.mk (b1 + n) (r1 - n) z1 i1 o1 w1 p1 f1 c1 st1 e1 cp1)
            rw [hrem] at hf2
            simp only [hrem] at hf1 hf3
            simp only [ite_true, hf1, hf2, hf3]
            omega
          · simp only [if_neg (show ¬ (r1 - n = 0) from hrem)]
            omega
      · simp only [if_neg hn]
        omega


/-- A storage backend whose writes are all short (report 0 bytes written). -/
def badWrites : Oracle := fun _ _ => 0

/-- C2 (amended). Provided at least one payload byte arrives via a socket read
after the SEND_BOOK drain (`k < totalLength` bytes pipelined), feeding exactly
`totalLength` bytes across arbitrary chunk boundaries writes exactly
`totalLength` bytes to storage and the completion sequence (flush, close, OK
acknowledgement, state back to Waiting) fires exactly once, when
`bytesReceived` reaches `totalLength`. -/
theorem c2_transfer_completion_amended (total k : Nat) (ns : List Nat)
    (hk : k < total)
    (hv : validReads (total - k) ns = true) (hsum : ns.sum = total - k) :
    (runReads okWrites (handleSendBookTail okWrites total k initialState) ns).bytesReceived
      = total ∧
    (runReads okWrites (handleSendBookTail okWrites total k initialState) ns).fileWritten
      = total ∧
    (runReads okWrites (handleSendBookTail okWrites total k initialState) ns).completions
      = 1 ∧
    (runReads okWrites (handleSendBookTail okWrites total k initialState) ns).wstate
      = .WAITING ∧
    (runReads okWrites (handleSendBookTail okWrites total k initialState) ns).fileOpen
      = false ∧
    (runReads okWrites (handleSendBookTail okWrites total k initialState) ns).inBinaryMode
      = false ∧
    (runReads okWrites (handleSendBookTail okWrites total k initialState) ns).errorMessage
      = none := by
  obtain ⟨hInv, hsz, hbr, hrem, hfwp⟩ := handleSendBookTail_inv total k hk
  have hrun := runReads_completes ns (handleSendBookTail okWrites total k initialState)
    hInv (by rw [hrem]; exact hv) (by rw [hrem]; exact hsum)
  rw [hsz] at hrun
  exact ⟨hrun.2.1, hrun.2.2.1, hrun.1, hrun.2.2.2.1, hrun.2.2.2.2.1,
    hrun.2.2.2.2.2.1, hrun.2.2.2.2.2.2.1⟩

/-- Witness for `c2_transfer_completion_amended`: 5-byte book, 2 bytes
pipelined, one 3-byte socket read. -/
theorem c2_transfer_completion_witness :
    2 < 5 ∧ validReads (5 - 2) [3] = true ∧ List.sum [3] = 5 - 2 ∧
    (runReads okWrites (handleSendBookTail okWrites 5 2 initialState) [3]).completions = 1 ∧
    (runReads okWrites (handleSendBookTail okWrites 5 2 initialState) [3]).fileWritten = 5 :=
  ⟨by decide, by decide, by decide,
    (c2_transfer_completion_amended 5 2 [3] (by decide) (by decide) (by decide)).2.2.1,
    (c2_transfer_completion_amended 5 2 [3] (by decide) (by decide) (by decide)).2.1⟩

/-- C2. The claim fails on the code when the whole payload is pipelined in
`recvBuffer`: the drain consumes all 5 declared bytes (`bytesReceived` equals
`totalLength`) yet no completion fires, nothing was flushed to storage, the
session stays `RECEIVING` with the file open — and every further
`receiveBinaryData` round is a no-op (with data available, `toRead` is 0 and
`read` returns 0; with none, the connected branch returns), so completion
never fires. -/
theorem c2_transfer_completion_counterexample :
    (handleSendBookTail okWrites 5 5 initialState).bytesReceived = 5 ∧
    (handleSendBookTail okWrites 5 5 initialState).currentFileSize = 5 ∧
    (handleSendBookTail okWrites 5 5 initialState).completions = 0 ∧
    (handleSendBookTail okWrites 5 5 initialState).fileWritten = 0 ∧
    (handleSendBookTail okWrites 5 5 initialState).wstate = .RECEIVING ∧
    (handleSendBookTail okWrites 5 5 initialState).inBinaryMode = true ∧
    (handleSendBookTail okWrites 5 5 initialState).fileOpen = true ∧
    receiveBinaryData okWrites (handleSendBookTail okWrites 5 5 initialState) 7 0 true =
      handleSendBookTail okWrites 5 5 initialState ∧
    receiveBinaryData okWrites (handleSendBookTail okWrites 5 5 initialState) 0 0 true =
      handleSendBookTail okWrites 5 5 initialState := by
  decide

/-- C3. On the SEND_BOOK drain path a short write is ignored: with a backend
reporting 0 bytes written, draining 5000 pipelined bytes performs one failed
flush (`flushCount = 1`) yet the session stays `RECEIVING` with the file open,
no error message, and no state change — while the same short write on the
socket-read path aborts the session with `ERROR`, closed file and "Write
error". -/
theorem c3_short_write_drain_ignored :
    (handleSendBookTail badWrites 5000 5000 initialState).wstate = .RECEIVING ∧
    (handleSendBookTail badWrites 5000 5000 initialState).fileOpen = true ∧
    (handleSendBookTail badWrites 5000 5000 initialState).writeFileSet = true ∧
    (handleSendBookTail badWrites 5000 5000 initialState).errorMessage = none ∧
    (handleSendBookTail badWrites 5000 5000 initialState).inBinaryMode = true ∧
    (handleSendBookTail badWrites 5000 5000 initialState).bytesReceived = 0 ∧
    (handleSendBookTail badWrites 5000 5000 initialState).flushCount = 1 ∧
    (receiveBinaryData badWrites (handleSendBookTail okWrites 5000 2 initialState)
      4096 4096 true).wstate = .ERROR ∧
    (receiveBinaryData badWrites (handleSendBookTail okWrites 5000 2 initialState)
      4096 4096 true).fileOpen = false ∧
    (receiveBinaryData badWrites (handleSendBookTail okWrites 5000 2 initialState)
      4096 4096 true).errorMessage = some "Write error" := by
  decide

/-- Witness for `c7_progress_invariant` at a concrete session. -/
theorem c7_progress_invariant_witness :
    ((handleSendBookTail okWrites 5 2 initialState).bytesReceived +
      (handleSendBookTail okWrites 5 2 initialState).binaryBytesRemaining =
      (handleSendBookTail okWrites 5 2 initialState).currentFileSize) ∧
    ((receiveBinaryData okWrites (handleSendBookTail okWrites 5 2 initialState) 3 3
        true).bytesReceived ≤
      (receiveBinaryData okWrites (handleSendBookTail okWrites 5 2 initialState) 3 3
        true).currentFileSize) :=
  ⟨(c7_progress_invariant.1 okWrites 5 2 initialState).1,
    (c7_progress_invariant.2 okWrites (handleSendBookTail okWrites 5 2 initialState) 3 3 true
      (by decide) (by decide)).2⟩


/-- Key string `"length"` (with quotes) searched for by `handleSendBook`. -/
def lengthKey : List Char := "\"length\"".data

/-- Whitespace skip of `handleSendBook`'s number scan (spaces and tabs,
CalibreWirelessActivity.cpp lines 665-667). -/
def skipSpaces (data : List Char) (j : Nat) : Nat :=
  j + ((data.drop j).takeWhile (fun c => c = ' ' || c = '\t')).length

/-- End of the digit run starting at `j` (CalibreWirelessActivity.cpp
lines 668-671). -/
def digitsEnd (data : List Char) (j : Nat) : Nat :=
  j + ((data.drop j).takeWhile isDigitChar).length

/-- Loop of `handleSendBook`'s top-level `length` extraction
(CalibreWirelessActivity.cpp lines 650-685): scan the payload tracking the
nesting depth of braces/brackets; at depth 1, a `"length"` key whose colon is
followed by at least one digit ends the scan with that number (the all-digit
substring always satisfies the `strtoul` end-pointer check, so the `break` is
taken); otherwise the scan continues and the result defaults to 0.  The fuel
argument bounds the loop; `data.length + 1` steps always suffice since the
index increases each iteration. -/
def extractLenAux (data : List Char) : Nat → Nat → Int → Nat
  | 0, _, _ => 0
  | fuel+1, i, depth =>
    if h : i < data.length then
      let c := data.get ⟨i, h⟩
      if c = '{' || c = '[' then extractLenAux data fuel (i+1) (depth+1)
      else if c = '}' || c = ']' then extractLenAux data fuel (i+1) (depth-1)
      else if depth = 1 && c = '"' && decide (i + 9 < data.length)
          && ((data.drop i).take 8 == lengthKey) then
        match findCharFrom data ':' (i+8) with
        | none => extractLenAux data fuel (i+1) depth
        | some colonPos =>
          let numStart := skipSpaces data (colonPos+1)
          let numEnd := digitsEnd data numStart
          if numEnd > numStart then digitsToNat ((data.drop numStart).take (numEnd - numStart))
          else extractLenAux data fuel (i+1) depth
      else extractLenAux data fuel (i+1) depth
    else 0

/-- Top-level `length` extraction of `handleSendBook`
(CalibreWirelessActivity.cpp lines 648-685), starting at index 0 with
depth 0. -/
def extractTopLevelLength (data : List Char) : Nat :=
  extractLenAux data (data.length + 1) 0 0

/-- C4. On the payload
`{"lpath":"a/b.epub","info":{"length":7},"length":1234}` the extracted
transfer size is 1234, not the nested 7; a payload whose only `length` key
sits at depth 2 yields 0 (deeper same-named fields are ignored); and a plain
top-level `length` is still found. -/
theorem c4_nested_length_disambiguation :
    extractTopLevelLength
      "\x7b\"lpath\":\"a/b.epub\",\"info\":\x7b\"length\":7\x7d,\"length\":1234\x7d".data
      = 1234 ∧
    extractTopLevelLength "\x7b\"info\":\x7b\"length\":7\x7d\x7d".data = 0 ∧
    extractTopLevelLength "\x7b\"length\":42\x7d".data = 42 := by
  decide

/-- Character class of C `isspace`, which `std::stoi` skips before parsing. -/
def cppIsSpace (c : Char) : Bool :=
  c = ' ' || c = '\t' || c = '\n' || c = '\x0b' || c = '\x0c' || c = '\r'

/-- Digit phase of `std::stoi`: `none` models a thrown exception
(`std::invalid_argument` when no digits follow, `std::out_of_range` when the
value leaves `int` range). -/
def stoiDigits (r : List Char) (sign : Int) : Option Int :=
  let ds := r.takeWhile isDigitChar
  if ds = [] then none
  else
    let v : Int := sign * (digitsToNat ds : Int)
    if v < -2147483648 || v > 2147483647 then none else some v

/-- Model of `std::stoi`: skip whitespace, optional sign, then digits;
`none` models a thrown exception, which this code never catches. -/
def cppStoi (s : List Char) : Option Int :=
  match s.dropWhile cppIsSpace with
  | '+' :: r => stoiDigits r 1
  | '-' :: r => stoiDigits r (-1)
  | r => stoiDigits r 1

/-- Truncation of `static_cast<uint16_t>` applied to an `int`. -/
def toUInt16 (v : Int) : Nat := (v % 65536).toNat

/-- Main-port handling shared by all branches of the reply parse
(CalibreWirelessActivity.cpp lines 305-311): trim leading spaces/tabs; an
empty port text leaves `calibrePort` unset (0, a clean retry), otherwise
`std::stoi` runs on the text — `none` models the uncaught exception. -/
def finishMainPort (portStr0 : List Char) (alt : Nat) : Option (Nat × Nat) :=
  let p := portStr0.dropWhile (fun c => c = ' ' || c = '\t')
  if p = [] then some (0, alt)
  else
    match cppStoi p with
    | none => none
    | some v => some (toUInt16 v, alt)

/-- Reply-parsing section of `listenForDiscovery`
(CalibreWirelessActivity.cpp lines 281-318), restricted to the port fields:
locate `;`, then `,` after it; with a comma, the alternate-port text is the
digit prefix after the comma (parsed by `std::stoi` when non-empty) and the
main-port text sits between them; otherwise everything after `;` is the
main-port text.  The result is `some (calibrePort, calibreAltPort)` with 0
meaning unset, and `none` models an uncaught `std::stoi` exception aborting
the process. -/
def parseDiscoveryPorts (response : List Char) : Option (Nat × Nat) :=
  match findCharFrom response ';' 0 with
  | none => some (0, 0)
  | some semiPos =>
    match findCharFrom response ',' semiPos with
    | some commaPos =>
      if commaPos > semiPos then
        let portStr := (response.drop (semiPos+1)).take (commaPos - semiPos - 1)
        let altStr := response.drop (commaPos+1)
        let altDigits := altStr.takeWhile isDigitChar
        if altDigits.length > 0 then
          match cppStoi altDigits with
          | none => none
          | some av => finishMainPort portStr (toUInt16 av)
        else finishMainPort portStr 0
      else finishMainPort (response.drop (semiPos+1)) 0
    | none => finishMainPort (response.drop (semiPos+1)) 0

/-- C6. A discovery reply with `;` followed by non-numeric port text
(`"foo;abc"`) makes the parse call `std::stoi` on `"abc"`, which throws with
no handler on the network task — the process aborts instead of retrying
(`none`).  Empty or whitespace-only port text after `;` is handled cleanly
(ports stay unset, discovery retries), and well-formed replies parse as
specified. -/
theorem c6_malformed_port_not_clean_retry :
    parseDiscoveryPorts "foo;abc".data = none ∧
    parseDiscoveryPorts "foo;".data = some (0, 0) ∧
    parseDiscoveryPorts "foo; ".data = some (0, 0) ∧
    parseDiscoveryPorts "calibre wireless device client (on myhost);9090,9091".data
      = some (9090, 9091) ∧
    parseDiscoveryPorts "foo;8080".data = some (8080, 0) := by
  decide

/-- Observable steps of `onExit` (CalibreWirelessActivity.cpp lines 104-190),
in program order. -/
inductive TeardownEvent
  | setStopFlag | udpStop | tcpStop | flushWriteBuf | closeTransferFile
  | forceDeleteNetworkTask | wifiDisconnect | wifiModeOff
  | forceDeleteDisplayTask | deleteMutexes
  deriving DecidableEq, Repr

/-- Event trace of `onExit` (CalibreWirelessActivity.cpp lines 104-190).  The
conditionals mirror the source: `tcpClient.stop()` only when connected, the
file close only when a file is open, each force-delete only when the task has
not already self-terminated, and the display-task delete only after the
rendering mutex is acquired within its 500 ms timeout. -/
def onExitTrace (tcpConnected fileOpen netTaskDeleted dispTaskDeleted
    renderingMutexAcquired : Bool) : List TeardownEvent :=
  [.setStopFlag, .udpStop] ++
  (if tcpConnected then [.tcpStop] else []) ++
  [.flushWriteBuf] ++
  (if fileOpen then [.closeTransferFile] else []) ++
  (if netTaskDeleted then [] else [.forceDeleteNetworkTask]) ++
  [.wifiDisconnect, .wifiModeOff] ++
  (if dispTaskDeleted then [] else
    if renderingMutexAcquired then [.forceDeleteDisplayTask] else []) ++
  [.deleteMutexes]

/-- Test for the two force-termination events of `onExit`. -/
def isForceDelete : TeardownEvent → Bool
  | .forceDeleteNetworkTask => true
  | .forceDeleteDisplayTask => true
  | _ => false

/-- File handling of `onExit` (CalibreWirelessActivity.cpp lines 122-129):
flush the write buffer, clear `currentWriteFile`, and close `currentFile` if
open. -/
def onExitFileTeardown (f : Oracle) (s : CalState) : CalState :=
  let s1 := (flushWriteBuffer f s).2
  let s2 := { s1 with writeFileSet := false }
  if s2.fileOpen then { s2 with fileOpen := false } else s2

/-- C9. After `onExit`'s file teardown no transfer file is open for write and
the coalescing buffer of an open-for-write file has been flushed (cursor 0);
and in every `onExit` trace the flush and the file close precede every
force-termination of a worker task. -/
theorem c9_teardown_closes_file_before_force_delete :
    (∀ (f : Oracle) (s : CalState),
      (onExitFileTeardown f s).fileOpen = false ∧
      (onExitFileTeardown f s).writeFileSet = false) ∧
    (∀ (f : Oracle) (s : CalState), s.fileOpen = true → s.writeFileSet = true →
      (onExitFileTeardown f s).writeBufferPos = 0) ∧
    (∀ (a b c d e : Bool),
      ∀ (i j : Fin (onExitTrace a b c d e).length),
        ((onExitTrace a b c d e).get i = .closeTransferFile ∨
          (onExitTrace a b c d e).get i = .flushWriteBuf) →
        isForceDelete ((onExitTrace a b c d e).get j) = true →
        (i : Nat) < (j : Nat)) := by
  refine ⟨?_, ?_, by decide⟩
  · intro f s
    rw [onExitFileTeardown]
    by_cases h : (flushWriteBuffer f s).2.fileOpen
    · simp [h]
    · simp [h]
  · intro f s hopen hset
    rw [onExitFileTeardown]
    rw [flushWriteBuffer]
    by_cases h : s.writeBufferPos > 0
    · simp [h, hopen, hset]
    · have hz : s.writeBufferPos = 0 := by omega
      simp [h, hopen, hset, hz]

/-- Witness for `c9_teardown_closes_file_before_force_delete` at a concrete
open-for-write session. -/
theorem c9_teardown_witness :
    (onExitFileTeardown okWrites
      { initialState with fileOpen := true, writeFileSet := true,
                          writeBufferPos := 123 }).fileOpen = false ∧
    (onExitFileTeardown okWrites
      { initialState with fileOpen := true, writeFileSet := true,
                          writeBufferPos := 123 }).writeBufferPos = 0 :=
  ⟨(c9_teardown_closes_file_before_force_delete.1 okWrites
      { initialState with fileOpen := true, writeFileSet := true,
                          writeBufferPos := 123 }).1,
    c9_teardown_closes_file_before_force_delete.2.1 okWrites
      { initialState with fileOpen := true, writeFileSet := true,
                          writeBufferPos := 123 } rfl rfl⟩

/-- Handler selected by the `switch` of `handleCommand`
(CalibreWirelessActivity.cpp lines 516-565); opcode values from
CalibreWirelessActivity.h lines 42-63.  Cases that only send the generic
`OK, {}` acknowledgement (SET_CALIBRE_DEVICE_INFO 1, SET_CALIBRE_DEVICE_NAME
2, SET_LIBRARY_INFO 19, SEND_BOOKLISTS 7, and the logged default) map to
`ackOk`. -/
inductive HandlerAction
  | getInitializationInfo | getDeviceInformation | freeSpace | getBookCount
  | sendBook (data : List Char) | sendBookMetadata (data : List Char)
  | displayMessage (data : List Char) | noop (data : List Char) | ackOk
  deriving DecidableEq, Repr

/-- Dispatch of `handleCommand` (CalibreWirelessActivity.cpp lines 516-565),
in the source's case order. -/
def handleCommandAction (opcode : Nat) (data : List Char) : HandlerAction :=
  match opcode with
  | 9 => .getInitializationInfo
  | 3 => .getDeviceInformation
  | 5 => .freeSpace
  | 6 => .getBookCount
  | 8 => .sendBook data
  | 16 => .sendBookMetadata data
  | 17 => .displayMessage data
  | 12 => .noop data
  | 1 => .ackOk
  | 2 => .ackOk
  | 19 => .ackOk
  | 7 => .ackOk
  | 4 => .freeSpace
  | _ => .ackOk

/-- Response of `handleFreeSpace` (CalibreWirelessActivity.cpp lines 615-620):
opcode `OK` (0) and the body `snprintf` renders for the probed byte count. -/
def handleFreeSpaceResponse (freeBytes : Nat) : Nat × List Char :=
  (0, "\x7b\"free_space_on_device\":".data ++ (Nat.repr freeBytes).data ++ "\x7d".data)

/-- C10. Dispatching TOTAL_SPACE (4) is extensionally equal to dispatching
FREE_SPACE (5): for every payload both select the `handleFreeSpace` handler,
whose reply is opcode OK with body `{"free_space_on_device":N}` — the device
never reports total capacity as a distinct value. -/
theorem c10_total_space_equals_free_space :
    (∀ data : List Char, handleCommandAction 4 data = handleCommandAction 5 data) ∧
    (∀ data : List Char, handleCommandAction 4 data = HandlerAction.freeSpace) ∧
    (∀ n : Nat, (handleFreeSpaceResponse n).1 = 0) ∧
    handleFreeSpaceResponse 123 = (0, "\x7b\"free_space_on_device\":123\x7d".data) := by
  exact ⟨fun data => rfl, fun data => rfl, fun n => rfl, by decide⟩

end CrossPointCalibre
